import Mathlib

/-!
Verification development for the KiviGo key-value abstraction as documented
by this repository (docs site).  The Go implementation itself is not part of
the repository; every definition below is modelled from the specification and
the documentation pages under `src/website/docs` and `src/unnamed`.

Modelled subsystems:
* the KeyBuilder template DSL (parse/validate, variable resolution from three
  input shapes, transformation pipelines, aggregated missing-field errors);
* the template registry (named templates plus registry-scoped transformation
  functions with retroactive injection);
* the client core batch operations over an in-memory backend model;
* the hook dispatcher (event-type and key filtering, invocation counting,
  best-effort bounded error buffers).
-/

/-! ## Characters and validation charset -/

/-- Modelled from the spec: the opening brace delimiter of the template DSL. -/
def lbrace : Char := Char.ofNat 123

/-- Modelled from the spec: the closing brace delimiter of the template DSL. -/
def rbrace : Char := Char.ofNat 125

/-- Modelled from the spec: the single-quote character used around literal
arguments of transformation calls. -/
def quoteChar : Char := Char.ofNat 39

/-- Letters and digits, the only characters allowed in field names. -/
def isAlphaNumChar (c : Char) : Bool := c.isAlpha || c.isDigit

/-- Modelled from the spec: characters permitted outside brace delimiters:
letters, digits and the delimiter set `/ | - _ :`. -/
def allowedOutside (c : Char) : Bool :=
  isAlphaNumChar c || c = '/' || c = '|' || c = '-' || c = '_' || c = ':'

/-! ## Template AST -/

/-- One transformation call in a field pipeline: a function name plus its
literal arguments. -/
structure FuncCall where
  name : String
  args : List String
deriving DecidableEq

/-- A template segment: a literal text run or a field reference carrying a
transformation pipeline. -/
inductive Segment
  | lit (s : String)
  | field (name : String) (pipeline : List FuncCall)
deriving DecidableEq

/-- A transformation function: current string value and literal arguments to
a new string value or an error message. -/
def TransformFn := String → List String → Except String String

/-! ## Parsing / validation

Modelled from the spec: outside braces only `allowedOutside` characters (and
the braces themselves) are permitted; inside braces the field-name portion
must be alphanumeric and a pipe-separated suffix lists transformation calls;
unbalanced or nested braces are validation errors. -/

/-- Split a character list at every occurrence of a separator character
(the accumulator holds the reversed current chunk). -/
def splitCharAux (sep : Char) : List Char → List Char → List (List Char)
  | [], acc => [acc.reverse]
  | c :: rest, acc =>
      if c = sep then acc.reverse :: splitCharAux sep rest []
      else splitCharAux sep rest (c :: acc)

/-- Split a character list at every occurrence of a separator character. -/
def splitChar (sep : Char) (cs : List Char) : List (List Char) :=
  splitCharAux sep cs []

/-- Strip a matching pair of single quotes from a literal argument. -/
def parseArgStr (a : List Char) : String :=
  match a with
  | [] => ""
  | c :: rest =>
      if c = quoteChar then
        if rest.getLast? = some quoteChar then String.mk rest.dropLast
        else String.mk a
      else String.mk a

/-- Parse one transformation call such as `upper` or `intadd(1)`. -/
def parseCall (s : List Char) : Except String FuncCall :=
  match splitChar '(' s with
  | [n] =>
      if n.isEmpty then .error "empty function name"
      else if n.all isAlphaNumChar then .ok ⟨String.mk n, []⟩
      else .error ("invalid function name: " ++ String.mk n)
  | [n, rest] =>
      if n.isEmpty then .error "empty function name"
      else if !(n.all isAlphaNumChar) then
        .error ("invalid function name: " ++ String.mk n)
      else if rest.getLast? = some ')' then
        .ok ⟨String.mk n, (splitChar ',' rest.dropLast).map parseArgStr⟩
      else .error ("unterminated argument list: " ++ String.mk s)
  | _ => .error ("malformed transformation call: " ++ String.mk s)

/-- Parse the inside of a brace pair: `fieldName|fn1|fn2(arg)`.  The field
name must be non-empty and alphanumeric. -/
def parseFieldSpec (s : List Char) : Except String Segment :=
  match splitChar '|' s with
  | [] => .error "empty field"
  | name :: calls =>
      if name.isEmpty then .error "empty field name"
      else if !(name.all isAlphaNumChar) then
        .error ("invalid field name: " ++ String.mk name)
      else
        match calls.mapM parseCall with
        | .error e => .error e
        | .ok fcs => .ok (.field (String.mk name) fcs)

/-- Character scanner for the template string.  `inside` says whether we are
between braces, `acc` accumulates the reversed brace contents. -/
def scanChars : Bool → List Char → List Char → Except String (List Segment)
  | false, _, [] => .ok []
  | false, acc, c :: rest =>
      if c = lbrace then scanChars true [] rest
      else if c = rbrace then .error "unbalanced closing brace"
      else if allowedOutside c then
        match scanChars false acc rest with
        | .ok segs => .ok (Segment.lit (String.mk [c]) :: segs)
        | .error e => .error e
      else .error ("invalid character outside braces: " ++ String.mk [c])
  | true, _, [] => .error "unclosed brace"
  | true, acc, c :: rest =>
      if c = lbrace then .error "nested brace"
      else if c = rbrace then
        match parseFieldSpec acc.reverse with
        | .error e => .error e
        | .ok seg =>
            match scanChars false [] rest with
            | .ok segs => .ok (seg :: segs)
            | .error e => .error e
      else scanChars true (c :: acc) rest

/-! ## Built-in transformation functions

Modelled from the spec: the docs table lists the built-ins under the names
`upper`, `lower`, `trim`, `slugify`, `default`, `if`, `intadd`. -/

def upperFn : TransformFn := fun s _ => .ok (String.mk (s.data.map Char.toUpper))

def lowerFn : TransformFn := fun s _ => .ok (String.mk (s.data.map Char.toLower))

/-- Drop whitespace from both ends of a character list. -/
def trimChars (cs : List Char) : List Char :=
  ((cs.dropWhile Char.isWhitespace).reverse.dropWhile Char.isWhitespace).reverse

def trimFn : TransformFn := fun s _ => .ok (String.mk (trimChars s.data))

/-- Replace whitespace runs by a single hyphen; `prevWS` tracks whether the
previous character was whitespace. -/
def collapseWS : Bool → List Char → List Char
  | _, [] => []
  | prevWS, c :: rest =>
      if c.isWhitespace then
        if prevWS then collapseWS true rest
        else '-' :: collapseWS true rest
      else c :: collapseWS false rest

def slugifyFn : TransformFn := fun s _ =>
  .ok (String.mk (collapseWS false (s.data.map Char.toLower)))

def defaultFn : TransformFn := fun s args =>
  .ok (if s.data.isEmpty then args.headD "" else s)

/-- Ternary: non-empty value selects the first argument, empty the second. -/
def condFn : TransformFn := fun s args =>
  .ok (if s.data.isEmpty then args.getD 1 "" else args.headD "")

/-- Parse a digit run as a natural number (none on empty or non-digit). -/
def parseNatAux : List Char → Nat → Option Nat
  | [], acc => some acc
  | c :: rest, acc =>
      if c.isDigit then parseNatAux rest (acc * 10 + (c.toNat - 48)) else none

/-- Parse a non-empty digit run as a natural number. -/
def parseNatChars (cs : List Char) : Option Nat :=
  if cs.isEmpty then none else parseNatAux cs 0

/-- Parse an optionally negated base-10 integer. -/
def parseIntChars : List Char → Option Int
  | [] => none
  | c :: rest =>
      if c = '-' then (parseNatChars rest).map (fun n => -(n : Int))
      else (parseNatChars (c :: rest)).map (fun n => (n : Int))

/-- Parse a string as a base-10 integer. -/
def strToInt (s : String) : Option Int := parseIntChars s.data

/-- Parses the value as a base-10 integer, fails if not parseable, adds the
integer argument and re-renders the sum in base 10. -/
def intaddFn : TransformFn := fun s args =>
  match strToInt s with
  | none => .error ("intadd: not an integer: " ++ s)
  | some v =>
      match strToInt (args.headD "") with
      | none => .error ("intadd: invalid delta: " ++ args.headD "")
      | some d => .ok (toString (v + d))

/-- The built-in function table installed in every freshly parsed template. -/
def builtins : List (String × TransformFn) :=
  [("upper", upperFn), ("lower", lowerFn), ("trim", trimFn),
   ("slugify", slugifyFn), ("default", defaultFn), ("if", condFn),
   ("intadd", intaddFn)]

/-! ## Template -/

/-- A parsed template: source string, segments, and its own transformation
function table (built-ins plus per-template or injected custom functions). -/
structure Template where
  src : String
  segments : List Segment
  funcs : List (String × TransformFn)

/-- Parse/validate a template string. -/
def Template.parse (s : String) : Except String Template :=
  match scanChars false [] s.data with
  | .error e => .error e
  | .ok segs => .ok ⟨s, segs, builtins⟩

/-- The single choke-point adding a function to a template's own table
(used both for per-template registration and registry injection). -/
def Template.injectFunc (t : Template) (n : String) (f : TransformFn) : Template :=
  { t with funcs := (n, f) :: t.funcs }

/-- Per-template custom function registration. -/
def Template.registerFunc (t : Template) (n : String) (f : TransformFn) : Template :=
  t.injectFunc n f

/-! ## Render-time values and input shapes -/

/-- A field value supplied at render time (the docs pass strings and ints). -/
inductive Value
  | vStr (s : String)
  | vInt (n : Int)
deriving DecidableEq

/-- Render a value as a string (Go renders ints in base 10). -/
def Value.render : Value → String
  | .vStr s => s
  | .vInt n => toString n

/-- One field of a structured record input. -/
structure RecordField where
  name : String
  exported : Bool
  value : Value

/-- Modelled from the spec: the render input may satisfy any of the three
variants: a KeyVars capability, a string-keyed map, a structured record. -/
structure RenderInput where
  keyVars : Option (List (String × Value))
  asMap : Option (List (String × Value))
  asStruct : Option (List RecordField)

/-- An input that is only a map. -/
def mapInput (m : List (String × Value)) : RenderInput := ⟨none, some m, none⟩

/-- Modelled from the spec: resolve the field mapping from the input using
the strict priority order KeyVars, then map, then struct (exported fields
only); an input satisfying none of the variants resolves to the empty
mapping, so every field lookup fails as missing. -/
def resolveVars (inp : RenderInput) : List (String × Value) :=
  match inp.keyVars with
  | some kv => kv
  | none =>
      match inp.asMap with
      | some m => m
      | none =>
          match inp.asStruct with
          | some fs => (fs.filter (fun f => f.exported)).map (fun f => (f.name, f.value))
          | none => []

/-! ## Rendering (Build) -/

/-- Build errors, structured: the aggregated missing-field error carries the
complete list of missing field names. -/
inductive BuildErr
  | missing (names : List String)
  | unknownFunc (name : String)
  | fnFailed (fnName : String) (msg : String)
deriving DecidableEq

/-- Does the pipeline contain a `default` transformation call? -/
def hasDefaultCall (p : List FuncCall) : Bool :=
  p.any (fun fc => fc.name = "default")

/-- All field names that are absent from the resolved mapping and whose
pipeline has no `default` transform, in template order. -/
def missingFieldNames (segs : List Segment) (vars : List (String × Value)) : List String :=
  segs.filterMap fun seg =>
    match seg with
    | .lit _ => none
    | .field n p =>
        if (vars.lookup n).isNone && !hasDefaultCall p then some n else none

/-- Apply a transformation pipeline left to right; an unknown function name
fails immediately, a function failure propagates. -/
def applyCalls (funcs : List (String × TransformFn)) (v : String) :
    List FuncCall → Except BuildErr String
  | [] => .ok v
  | fc :: rest =>
      match funcs.lookup fc.name with
      | none => .error (.unknownFunc fc.name)
      | some f =>
          match f v fc.args with
          | .error msg => .error (.fnFailed fc.name msg)
          | .ok v2 => applyCalls funcs v2 rest

/-- Render segments in order, concatenating literal runs and transformed
field values (a missing field starts from the empty string, which only the
`default` transform can rescue). -/
def renderSegs (funcs : List (String × TransformFn)) (vars : List (String × Value)) :
    List Segment → Except BuildErr String
  | [] => .ok ""
  | .lit s :: rest =>
      match renderSegs funcs vars rest with
      | .ok tail => .ok (s ++ tail)
      | .error e => .error e
  | .field n p :: rest =>
      let start := match vars.lookup n with
        | some v => v.render
        | none => ""
      match applyCalls funcs start p with
      | .error e => .error e
      | .ok piece =>
          match renderSegs funcs vars rest with
          | .ok tail => .ok (piece ++ tail)
          | .error e => .error e

/-- Modelled from the spec: Build resolves the variables once, accumulates
every missing field without a default, fails with one aggregated error when
any are missing, and otherwise renders the segments in order. -/
def Template.build (t : Template) (inp : RenderInput) : Except BuildErr String :=
  let vars := resolveVars inp
  let miss := missingFieldNames t.segments vars
  if miss.isEmpty then renderSegs t.funcs vars t.segments
  else .error (.missing miss)

/-- Parse a template and build it against a map input; `none` when parsing
fails, otherwise the build outcome. -/
def parseAndBuild (s : String) (m : List (String × Value)) :
    Option (Except BuildErr String) :=
  match Template.parse s with
  | .error _ => none
  | .ok t => some (t.build (mapInput m))

/-! ## Template Registry -/

/-- Modelled from the spec: a registry maps template names to templates and
holds a table of registry-scoped transformation functions. -/
structure Registry where
  templates : List (String × Template)
  funcs : List (String × TransformFn)

def Registry.empty : Registry := ⟨[], []⟩

/-- Apply every registry-scoped function to a template's own table (the
head of the function list is injected last, so it takes precedence). -/
def injectAll (fs : List (String × TransformFn)) (t : Template) : Template :=
  fs.foldr (fun nf acc => acc.injectFunc nf.1 nf.2) t

/-- Modelled from the spec: Register fails on a duplicate name without
mutating state; otherwise it stores the template with every currently known
registry-scoped function applied.  The second component is the registry
state observable after the call. -/
def Registry.register (r : Registry) (name : String) (t : Template) :
    Except String Unit × Registry :=
  if (r.templates.lookup name).isSome then
    (.error ("template name already registered: " ++ name), r)
  else
    (.ok (), { templates := (name, injectAll r.funcs t) :: r.templates,
               funcs := r.funcs })

/-- Modelled from the spec: RegisterFunc stores the function in the registry
table and injects it into every currently registered template. -/
def Registry.registerFunc (r : Registry) (name : String) (fn : TransformFn) :
    Registry :=
  { templates := r.templates.map (fun p => (p.1, (p.2).injectFunc name fn)),
    funcs := (name, fn) :: r.funcs }

/-- Simple lookup; never errors. -/
def Registry.get (r : Registry) (name : String) : Option Template :=
  r.templates.lookup name

/-! ## Hook dispatcher -/

/-- The event types emitted to hooks. -/
inductive EventType
  | eventSet
  | eventSetRaw
  | eventDelete
  | eventBatchSet
  | eventBatchDel
deriving DecidableEq, BEq

/-- One unit of hook fan-out: event type, key, optional value bytes. -/
structure Event where
  type : EventType
  key : String
  value : Option (List Nat)

/-- Outcome of one hook callback invocation; `fail` covers both a returned
error and a synchronous timeout (both are delivered the same way). -/
inductive HookResult
  | ok
  | fail (msg : String)
deriving DecidableEq

/-- Modelled from the spec: a hook registration with its event-type filter
(empty list = match all), key filter (none = match all), callback, and a
bounded error buffer modelling the buffered error channel.  `calls` counts
how many times the callback has been invoked. -/
structure HookReg where
  id : Nat
  events : List EventType
  keyFilter : Option (String → Bool)
  callback : EventType → String → Option (List Nat) → HookResult
  errCap : Nat
  errBuf : List String
  calls : Nat

/-- Does the registration's event-type filter admit this event type? -/
def eventTypeMatches (h : HookReg) (ty : EventType) : Bool :=
  h.events.isEmpty || h.events.contains ty

/-- Does the registration's key filter admit this key? -/
def keyMatches (h : HookReg) (k : String) : Bool :=
  match h.keyFilter with
  | none => true
  | some f => f k

/-- Does the registration match the event (both filters)? -/
def eventMatches (h : HookReg) (e : Event) : Bool :=
  eventTypeMatches h e.type && keyMatches h e.key

/-- Modelled from the spec: run one hook against one event.  A matching hook
is invoked; on failure the error is pushed onto the hook's bounded error
buffer if there is room and dropped otherwise; the hook outcome is never
surfaced anywhere else. -/
def runHook (e : Event) (h : HookReg) : HookReg :=
  if eventMatches h e then
    match h.callback e.type e.key e.value with
    | .ok => { h with calls := h.calls + 1 }
    | .fail msg =>
        { h with calls := h.calls + 1,
                 errBuf := if h.errBuf.length < h.errCap
                           then h.errBuf ++ [msg] else h.errBuf }
  else h

/-- Dispatch one event to every registration. -/
def dispatch (e : Event) (hs : List HookReg) : List HookReg :=
  hs.map (runHook e)

/-! ## Client core over an in-memory backend model

The backend is modelled as an association list from keys to byte lists; the
encoder step is identity (values are already bytes), which the claims below
do not exercise. -/

/-- Store a key, replacing any previous binding. -/
def storeSet (store : List (String × List Nat)) (k : String) (v : List Nat) :
    List (String × List Nat) :=
  (k, v) :: store.filter (fun kv => kv.1 != k)

/-- Delete a key. -/
def storeDel (store : List (String × List Nat)) (k : String) :
    List (String × List Nat) :=
  store.filter (fun kv => kv.1 != k)

/-- The client: an in-memory backend plus the hook registration table. -/
structure Client where
  store : List (String × List Nat)
  hooks : List HookReg

/-- Modelled from the spec: Set validates the key, stores the bytes, and on
success emits one Set event; hook outcomes never affect the result. -/
def Client.set (c : Client) (k : String) (v : List Nat) : Except String Client :=
  if k = "" then .error "empty key"
  else .ok { store := storeSet c.store k v,
             hooks := dispatch ⟨.eventSet, k, some v⟩ c.hooks }

/-- Modelled from the spec: Delete validates the key, deletes it, and on
success emits one Delete event (no value). -/
def Client.delete (c : Client) (k : String) : Except String Client :=
  if k = "" then .error "empty key"
  else .ok { store := storeDel c.store k,
             hooks := dispatch ⟨.eventDelete, k, none⟩ c.hooks }

/-- Modelled from the spec: BatchSet stores every pair and emits one
BatchSet event per key, not one aggregate event. -/
def Client.batchSet (c : Client) (kvs : List (String × List Nat)) :
    Except String Client :=
  if kvs.any (fun kv => kv.1 == "") then .error "empty key"
  else .ok { store := kvs.foldl (fun s kv => storeSet s kv.1 kv.2) c.store,
             hooks := kvs.foldl
               (fun hs kv => dispatch ⟨.eventBatchSet, kv.1, some kv.2⟩ hs)
               c.hooks }

/-- Modelled from the spec: BatchDelete deletes every key and emits one
BatchDelete event per key. -/
def Client.batchDelete (c : Client) (ks : List String) : Except String Client :=
  if ks.any (fun k => k == "") then .error "empty key"
  else .ok { store := ks.foldl (fun s k => storeDel s k) c.store,
             hooks := ks.foldl
               (fun hs k => dispatch ⟨.eventBatchDel, k, none⟩ hs)
               c.hooks }

/-- Modelled from the spec: BatchGet returns a result map with one entry per
requested key that exists in the store; absent keys are silently omitted. -/
def Client.batchGet (c : Client) (ks : List String) :
    Except String (List (String × List Nat)) :=
  .ok (ks.filterMap (fun k => (c.store.lookup k).map (fun v => (k, v))))

/-! ## Shared sample data and scenarios -/

/-- A trivial template value used in concrete witnesses. -/
def t0sample : Template := ⟨"x", [], []⟩

/-- A registry holding one template under the name `a`. -/
def r0sample : Registry := ⟨[("a", t0sample)], []⟩

/-- The custom `reverse` transformation from the registry docs. -/
def revFn : TransformFn := fun s _ => .ok (String.mk s.data.reverse)

/-- The registry scenario of the docs: register the template first, the
function afterwards, then fetch and build. -/
def c2Scenario : Option String :=
  match Template.parse "foo:\x7bbar|reverse\x7d" with
  | .error _ => none
  | .ok t =>
      let r1 := (Registry.empty.register "foo" t).2
      let r2 := r1.registerFunc "reverse" revFn
      match r2.get "foo" with
      | none => none
      | some t2 =>
          match t2.build (mapInput [("bar", Value.vStr "abcde")]) with
          | .error _ => none
          | .ok s => some s

/-! ## Claim theorems -/

/-- C3: field values are resolved from exactly one input variant, the first
satisfied in the fixed priority order KeyVars, then map, then struct; an
input that is both a map and exposes KeyVars uses the KeyVars result
exclusively. -/
theorem input_variant_priority :
    (∀ (inp : RenderInput) (kv : List (String × Value)),
        inp.keyVars = some kv → resolveVars inp = kv)
  ∧ (∀ (inp : RenderInput) (m : List (String × Value)),
        inp.keyVars = none → inp.asMap = some m → resolveVars inp = m)
  ∧ (∀ (inp : RenderInput) (fs : List RecordField),
        inp.keyVars = none → inp.asMap = none → inp.asStruct = some fs →
        resolveVars inp
          = (fs.filter (fun f => f.exported)).map (fun f => (f.name, f.value)))
  ∧ (∀ (inp : RenderInput),
        inp.keyVars = none → inp.asMap = none → inp.asStruct = none →
        resolveVars inp = []) := by
  refine ⟨?_, ?_, ?_, ?_⟩
  · intro inp kv h1
    simp [resolveVars, h1]
  · intro inp m h1 h2
    simp [resolveVars, h1, h2]
  · intro inp fs h1 h2 h3
    simp [resolveVars, h1, h2, h3]
  · intro inp h1 h2 h3
    simp [resolveVars, h1, h2, h3]

/-- C3 witness: an input that is simultaneously a map and exposes KeyVars
resolves exclusively to the KeyVars mapping. -/
theorem input_variant_priority_witness :
    resolveVars ⟨some [("a", Value.vStr "kv")], some [("a", Value.vStr "map")], none⟩
      = [("a", Value.vStr "kv")] :=
  input_variant_priority.1 _ _ rfl

/-- C8: registering a template under a name already bound in the registry
fails with an error and leaves the registry (template table and function
table) unchanged; the previously stored template stays bound. -/
theorem register_duplicate_fails_unchanged :
    ∀ (r : Registry) (name : String) (t0 t : Template),
      r.templates.lookup name = some t0 →
      (r.register name t).1
          = Except.error ("template name already registered: " ++ name)
      ∧ (r.register name t).2 = r
      ∧ ((r.register name t).2).templates.lookup name = some t0 := by
  intro r name t0 t h
  refine ⟨?_, ?_, ?_⟩ <;> simp [Registry.register, h]

/-- C8 witness: a concrete duplicate registration fails and changes
nothing. -/
theorem register_duplicate_fails_unchanged_witness :
    (r0sample.register "a" t0sample).1
        = Except.error ("template name already registered: " ++ "a")
    ∧ (r0sample.register "a" t0sample).2 = r0sample
    ∧ ((r0sample.register "a" t0sample).2).templates.lookup "a" = some t0sample :=
  register_duplicate_fails_unchanged r0sample "a" t0sample t0sample rfl

/-- C9 counterexample: the claim names the built-ins `uppercase` and
`lowercase`, but a freshly parsed template resolves neither: the pipeline
`field|uppercase` fails the render with an unknown-function error. -/
theorem builtin_uppercase_claim_false :
    parseAndBuild "\x7bfield|uppercase\x7d" [("field", Value.vStr "abc")]
      = some (Except.error (BuildErr.unknownFunc "uppercase")) := by
  rfl

/-- C9 amended: every freshly parsed template provides the built-ins under
the names upper, lower, trim, slugify, default, if and intadd, so pipelines
invoking these names resolve to a built-in. -/
theorem builtin_function_names :
    (∀ (s : String) (t : Template), Template.parse s = .ok t →
        t.funcs = builtins
        ∧ ∀ n, n ∈ ["upper", "lower", "trim", "slugify", "default", "if", "intadd"] →
            (t.funcs.lookup n).isSome = true)
  ∧ parseAndBuild "\x7bfield|upper\x7d" [("field", Value.vStr "a")]
      = some (.ok "A")
  ∧ parseAndBuild "\x7bfield|lower\x7d" [("field", Value.vStr "A")]
      = some (.ok "a") := by
  refine ⟨?_, rfl, rfl⟩
  intro s t h
  have hf : t.funcs = builtins := by
    unfold Template.parse at h
    cases hs : scanChars false [] s.data with
    | error e => rw [hs] at h; exact absurd h (by simp)
    | ok segs => rw [hs] at h; cases h; rfl
  refine ⟨hf, ?_⟩
  intro n hn
  rw [hf]
  fin_cases hn <;> rfl

/-- C9 amended witness: a concretely parsed template carries exactly the
built-in table, where each documented name is bound. -/
theorem builtin_function_names_witness :
    (⟨"a", [Segment.lit "a"], builtins⟩ : Template).funcs = builtins
    ∧ ((⟨"a", [Segment.lit "a"], builtins⟩ : Template).funcs.lookup "upper").isSome
        = true :=
  ⟨(builtin_function_names.1 "a" _ rfl).1,
   (builtin_function_names.1 "a" _ rfl).2 "upper" (by simp)⟩

/-- C6 counterexample: the claimed example template contains a plus sign
outside braces, which the documented validation charset rejects, so parsing
fails and the claimed rendering to n+1:5 cannot happen. -/
theorem intadd_claim_template_rejected :
    parseAndBuild "n+1:\x7bn|intadd(1)\x7d" [("n", Value.vInt 4)] = none
    ∧ Template.parse "n+1:\x7bn|intadd(1)\x7d"
        = Except.error ("invalid character outside braces: " ++ "+") := by
  exact ⟨rfl, rfl⟩

/-- C6 amended: intadd parses its input as a base-10 integer, fails the
render if not parseable, adds the integer argument and re-renders the sum in
base 10; on a template within the validation charset, rendering n with value
4 through intadd(1) yields 5. -/
theorem intadd_semantics :
    (∀ (s : String) (args : List String), strToInt s = none →
        intaddFn s args = .error ("intadd: not an integer: " ++ s))
  ∧ (∀ (s : String) (args : List String) (v d : Int),
        strToInt s = some v → strToInt (args.headD "") = some d →
        intaddFn s args = .ok (toString (v + d)))
  ∧ parseAndBuild "n:\x7bn|intadd(1)\x7d" [("n", Value.vInt 4)]
      = some (.ok "n:5") := by
  refine ⟨?_, ?_, rfl⟩
  · intro s args h
    simp only [intaddFn]
    rw [h]
  · intro s args v d h1 h2
    simp only [intaddFn]
    rw [h1, h2]

/-- C6 amended witness: concrete failure on a non-numeric input and concrete
success 4 + 1 = 5. -/
theorem intadd_semantics_witness :
    intaddFn "abc" [] = .error ("intadd: not an integer: " ++ "abc")
    ∧ intaddFn "4" ["1"] = .ok (toString ((4 : Int) + 1)) :=
  ⟨intadd_semantics.1 "abc" [] rfl, intadd_semantics.2.1 "4" ["1"] 4 1 rfl rfl⟩

/-- Lookup after mapping a function over the values of an association
list. -/
theorem lookup_map_value {β γ : Type} (g : β → γ) :
    ∀ (l : List (String × β)) (k : String),
      (l.map (fun p => (p.1, g p.2))).lookup k = (l.lookup k).map g := by
  intro l
  induction l with
  | nil => intro k; rfl
  | cons p rest ih =>
      intro k
      cases hb : k == p.1 <;> simp [List.lookup, hb, ih]

/-- C1: when the resolved mapping misses fields whose pipelines have no
default transform, Build fails with one aggregated error carrying the
complete list of missing field names (no partial output); the list names
exactly the missing no-default fields; rendering a:x:b:y against an empty
map fails mentioning both x and y. -/
theorem build_aggregates_missing_fields :
    (∀ (t : Template) (inp : RenderInput),
        missingFieldNames t.segments (resolveVars inp) ≠ [] →
        t.build inp
          = Except.error
              (BuildErr.missing (missingFieldNames t.segments (resolveVars inp))))
  ∧ (∀ (segs : List Segment) (vars : List (String × Value)) (n : String),
        n ∈ missingFieldNames segs vars ↔
          ∃ p, Segment.field n p ∈ segs ∧ vars.lookup n = none
            ∧ hasDefaultCall p = false)
  ∧ parseAndBuild "a:\x7bx\x7d:b:\x7by\x7d" []
      = some (Except.error (BuildErr.missing ["x", "y"])) := by
  refine ⟨?_, ?_, rfl⟩
  · intro t inp h
    have he : (missingFieldNames t.segments (resolveVars inp)).isEmpty = false := by
      cases hm : missingFieldNames t.segments (resolveVars inp) with
      | nil => exact absurd hm h
      | cons a l => rfl
    simp only [Template.build]
    rw [he]
    simp
  · intro segs vars n
    simp only [missingFieldNames, List.mem_filterMap]
    constructor
    · rintro ⟨seg, hmem, hf⟩
      cases seg with
      | lit s => simp at hf
      | field m p =>
          simp only at hf
          split at hf
          · rename_i hcond
            cases hf
            rw [Bool.and_eq_true, Bool.not_eq_true'] at hcond
            exact ⟨p, hmem, Option.isNone_iff_eq_none.mp hcond.1, hcond.2⟩
          · exact absurd hf (by simp)
    · rintro ⟨p, hmem, hnone, hdef⟩
      exact ⟨Segment.field n p, hmem, by simp [hnone, hdef]⟩

/-- C1 witness: a concrete two-field template built against the empty input
fails with the aggregated error naming both fields. -/
theorem build_aggregates_missing_fields_witness :
    Template.build
        ⟨"", [Segment.field "x" [], Segment.field "y" []], builtins⟩ (mapInput [])
      = Except.error (BuildErr.missing ["x", "y"]) :=
  build_aggregates_missing_fields.1 _ _ (by decide)

/-- C2: RegisterFunc injects the function into every template already
registered in the registry (the stored template gains the function under
that name), templates registered afterwards receive it through the same
injection, and the docs scenario — registering foo:bar-reverse first, the
reverse function afterwards — still renders abcde to foo:edcba. -/
theorem registry_func_injection_retroactive :
    (∀ (r : Registry) (name tname : String) (fn : TransformFn) (t : Template),
        r.templates.lookup tname = some t →
        (r.registerFunc name fn).templates.lookup tname
            = some (t.injectFunc name fn)
        ∧ ((t.injectFunc name fn).funcs.lookup name) = some fn)
  ∧ (∀ (r : Registry) (name : String) (fn : TransformFn) (t : Template),
        injectAll ((r.registerFunc name fn).funcs) t
          = (injectAll r.funcs t).injectFunc name fn)
  ∧ c2Scenario = some "foo:edcba" := by
  refine ⟨?_, ?_, rfl⟩
  · intro r name tname fn t h
    constructor
    · show (r.templates.map
          (fun p => (p.1, (p.2).injectFunc name fn))).lookup tname = _
      rw [lookup_map_value (fun t2 => t2.injectFunc name fn) r.templates tname, h]
      rfl
    · simp [Template.injectFunc, List.lookup]
  · intro r name fn t
    rfl

/-- C2 witness: injecting a function into a registry holding one template
updates that stored template. -/
theorem registry_func_injection_retroactive_witness :
    (Registry.registerFunc ⟨[("a", t0sample)], []⟩ "f" revFn).templates.lookup "a"
      = some (t0sample.injectFunc "f" revFn) :=
  (registry_func_injection_retroactive.1 ⟨[("a", t0sample)], []⟩ "f" "a" revFn
      t0sample rfl).1

/-- A trace of the scanner modes that flags any character outside braces
that the validation charset forbids. -/
def hasBadOutside : Bool → List Char → Bool
  | _, [] => false
  | false, c :: rest =>
      if c = lbrace then hasBadOutside true rest
      else if c = rbrace then false
      else if allowedOutside c then hasBadOutside false rest
      else true
  | true, c :: rest =>
      if c = rbrace then hasBadOutside false rest
      else hasBadOutside true rest

/-- A forbidden character outside braces always makes the scanner fail. -/
theorem scanChars_error_of_bad :
    ∀ (l : List Char),
      (hasBadOutside false l = true →
        ∀ acc, ∃ e, scanChars false acc l = .error e)
      ∧ (hasBadOutside true l = true →
        ∀ acc, ∃ e, scanChars true acc l = .error e) := by
  intro l
  induction l with
  | nil => constructor <;> intro h <;> simp [hasBadOutside] at h
  | cons c rest ih =>
      constructor
      · intro h acc
        by_cases h1 : c = lbrace
        · rw [hasBadOutside, if_pos h1] at h
          obtain ⟨e, he⟩ := (ih.2 h) []
          exact ⟨e, by rw [scanChars, if_pos h1, he]⟩
        · by_cases h2 : c = rbrace
          · exact ⟨"unbalanced closing brace",
              by rw [scanChars, if_neg h1, if_pos h2]⟩
          · by_cases h3 : allowedOutside c
            · rw [hasBadOutside, if_neg h1, if_neg h2, if_pos h3] at h
              obtain ⟨e, he⟩ := (ih.1 h) acc
              exact ⟨e, by rw [scanChars, if_neg h1, if_neg h2, if_pos h3, he]⟩
            · exact ⟨"invalid character outside braces: " ++ String.mk [c],
                by rw [scanChars, if_neg h1, if_neg h2, if_neg h3]⟩
      · intro h acc
        by_cases h1 : c = lbrace
        · exact ⟨"nested brace", by rw [scanChars, if_pos h1]⟩
        · by_cases h2 : c = rbrace
          · rw [hasBadOutside, if_pos h2] at h
            obtain ⟨e2, he2⟩ := (ih.1 h) []
            cases hp : parseFieldSpec acc.reverse with
            | error e => exact ⟨e, by rw [scanChars, if_neg h1, if_pos h2, hp]⟩
            | ok seg =>
                exact ⟨e2, by rw [scanChars, if_neg h1, if_pos h2, hp, he2]⟩
          · rw [hasBadOutside, if_neg h2] at h
            obtain ⟨e, he⟩ := (ih.2 h) (c :: acc)
            exact ⟨e, by rw [scanChars, if_neg h1, if_neg h2, he]⟩

/-- C7: parse/validate rejects any character outside braces beyond letters,
digits and the delimiter set, and rejects any field name containing a
non-alphanumeric character; the space in user ID and the question mark both
fail validation. -/
theorem template_validation_charset :
    (∀ (s : String), hasBadOutside false s.data = true →
        ∃ e, Template.parse s = Except.error e)
  ∧ (∀ (inner : List Char),
        ((splitChar '|' inner).headD []).all isAlphaNumChar = false →
        ∃ e, parseFieldSpec inner = Except.error e)
  ∧ Template.parse "\x7buser ID\x7d"
      = Except.error ("invalid field name: " ++ "user ID")
  ∧ Template.parse "user:\x7buserID\x7d/data:\x7bdataID\x7d?"
      = Except.error ("invalid character outside braces: " ++ "?") := by
  refine ⟨?_, ?_, rfl, rfl⟩
  · intro s h
    obtain ⟨e, he⟩ := ((scanChars_error_of_bad s.data).1 h) []
    exact ⟨e, by rw [Template.parse, he]⟩
  · intro inner h
    cases hsp : splitChar '|' inner with
    | nil => rw [hsp] at h; simp at h
    | cons name calls =>
        rw [hsp] at h
        simp only [List.headD_cons] at h
        have hne : name.isEmpty = false := by
          cases name with
          | nil => simp at h
          | cons a l => rfl
        refine ⟨"invalid field name: " ++ String.mk name, ?_⟩
        rw [parseFieldSpec, hsp]
        simp [hne, h]

/-- C7 witness: both documented invalid templates are rejected, through the
general parts of the theorem. -/
theorem template_validation_charset_witness :
    (∃ e, Template.parse "user:\x7buserID\x7d/data:\x7bdataID\x7d?"
        = Except.error e)
    ∧ (∃ e, parseFieldSpec ("user ID".data) = Except.error e) :=
  ⟨template_validation_charset.1 _ (by decide),
   template_validation_charset.2.1 ("user ID".data) (by decide)⟩

/-- Lookup in the association list BatchGet builds: present exactly for
requested keys that exist in the store, with the stored value. -/
theorem lookup_batchGet_result (store : List (String × List Nat)) :
    ∀ (ks : List String) (k : String),
      (ks.filterMap (fun k2 => (store.lookup k2).map (fun v => (k2, v)))).lookup k
        = if k ∈ ks then store.lookup k else none := by
  intro ks
  induction ks with
  | nil => intro k; simp
  | cons a rest ih =>
      intro k
      cases hb : k == a with
      | true =>
          have hk : k = a := by simpa using hb
          subst hk
          cases hsl : store.lookup k with
          | none =>
              simp only [List.filterMap_cons, hsl, Option.map_none']
              rw [ih k]
              by_cases hr : k ∈ rest
              · simp [hr, hsl]
              · simp [hr]
          | some v =>
              simp [List.filterMap_cons, hsl, List.lookup]
      | false =>
          have hk : ¬(k = a) := by simpa using hb
          cases hsl : store.lookup a with
          | none =>
              simp only [List.filterMap_cons, hsl, Option.map_none']
              rw [ih k]
              simp [hk]
          | some v =>
              simp only [List.filterMap_cons, hsl, Option.map_some']
              rw [List.lookup, hb, ih k]
              simp [hk]

/-- C10: BatchGet over a non-empty key list succeeds and returns a map with
entries exactly for the requested keys that exist in the store, carrying the
stored values; absent keys are silently omitted. -/
theorem batchGet_omits_missing_keys :
    ∀ (c : Client) (ks : List String), ks ≠ [] →
      ∃ m, c.batchGet ks = Except.ok m
        ∧ (∀ k, m.lookup k = if k ∈ ks then c.store.lookup k else none)
        ∧ (∀ kv, kv ∈ m → kv.1 ∈ ks ∧ c.store.lookup kv.1 = some kv.2) := by
  intro c ks _
  refine ⟨_, rfl, ?_, ?_⟩
  · intro k
    exact lookup_batchGet_result c.store ks k
  · intro kv hkv
    rw [List.mem_filterMap] at hkv
    obtain ⟨k2, hk2, hf⟩ := hkv
    cases hsl : c.store.lookup k2 with
    | none => rw [hsl] at hf; simp at hf
    | some v =>
        rw [hsl] at hf
        simp only [Option.map_some'] at hf
        cases hf
        exact ⟨hk2, hsl⟩

/-- C10 witness: a concrete store with one of two requested keys present
returns exactly the present entry. -/
theorem batchGet_omits_missing_keys_witness :
    ∃ m, Client.batchGet ⟨[("a", [1])], []⟩ ["a", "b"] = Except.ok m
      ∧ (∀ k, m.lookup k
            = if k ∈ ["a", "b"]
              then (([("a", [1])] : List (String × List Nat)).lookup k) else none)
      ∧ (∀ kv, kv ∈ m → kv.1 ∈ ["a", "b"]
            ∧ (([("a", [1])] : List (String × List Nat)).lookup kv.1) = some kv.2) :=
  batchGet_omits_missing_keys ⟨[("a", [1])], []⟩ ["a", "b"] (by decide)

/-! ## Hook dispatcher lemmas -/

/-- Default hook used with positional access. -/
def defaultHook : HookReg := ⟨0, [], none, fun _ _ _ => .ok, 0, [], 0⟩

/-- Running a hook never changes its event filter. -/
theorem runHook_events (e : Event) (h : HookReg) :
    (runHook e h).events = h.events := by
  unfold runHook
  cases hm : eventMatches h e
  · simp
  · simp only [if_true]
    cases h.callback e.type e.key e.value <;> rfl

/-- Running a hook never changes its key filter. -/
theorem runHook_keyFilter (e : Event) (h : HookReg) :
    (runHook e h).keyFilter = h.keyFilter := by
  unfold runHook
  cases hm : eventMatches h e
  · simp
  · simp only [if_true]
    cases h.callback e.type e.key e.value <;> rfl

/-- Running a hook preserves which events it matches. -/
theorem runHook_eventMatches (e e2 : Event) (h : HookReg) :
    eventMatches (runHook e h) e2 = eventMatches h e2 := by
  unfold eventMatches eventTypeMatches keyMatches
  rw [runHook_events, runHook_keyFilter]

/-- A matching event increments the invocation counter by exactly one. -/
theorem runHook_calls_of_matches (e : Event) (h : HookReg)
    (hm : eventMatches h e = true) : (runHook e h).calls = h.calls + 1 := by
  unfold runHook
  rw [hm]
  simp only [if_true]
  cases h.callback e.type e.key e.value <;> rfl

/-- A failing callback on a matching event appends the error to the bounded
buffer when there is room, and drops it otherwise. -/
theorem runHook_errBuf_of_fail (e : Event) (h : HookReg) (msg : String)
    (hm : eventMatches h e = true)
    (hcb : h.callback e.type e.key e.value = .fail msg) :
    (runHook e h).errBuf
      = (if h.errBuf.length < h.errCap then h.errBuf ++ [msg] else h.errBuf) := by
  unfold runHook
  rw [hm, hcb]
  rfl

/-- Positional access commutes with mapping when in bounds. -/
theorem getD_map_of_lt (f : HookReg → HookReg) :
    ∀ (l : List HookReg) (i : Nat), i < l.length →
      ∀ (d : HookReg), (l.map f).getD i d = f (l.getD i d) := by
  intro l
  induction l with
  | nil => intro i hi d; simp at hi
  | cons a rest ih =>
      intro i hi d
      cases i with
      | zero => rfl
      | succ j =>
          simp only [List.map_cons, List.getD_cons_succ]
          exact ih j (by simpa using hi) d

/-- Folding per-key dispatches over a list preserves the number of
registered hooks. -/
theorem dispatchFold_length {α : Type} (mkEv : α → Event) :
    ∀ (xs : List α) (hs : List HookReg),
      (xs.foldl (fun a x => dispatch (mkEv x) a) hs).length = hs.length := by
  intro xs
  induction xs with
  | nil => intro hs; rfl
  | cons x rest ih =>
      intro hs
      simp only [List.foldl_cons]
      rw [ih (dispatch (mkEv x) hs)]
      simp [dispatch]

/-- Folding per-key dispatches over a list invokes a hook that matches every
per-key event exactly once per list element. -/
theorem dispatchFold_count {α : Type} (mkEv : α → Event) :
    ∀ (xs : List α) (hs : List HookReg) (i : Nat), i < hs.length →
      (∀ x ∈ xs, eventMatches (hs.getD i defaultHook) (mkEv x) = true) →
      ((xs.foldl (fun a x => dispatch (mkEv x) a) hs).getD i defaultHook).calls
        = (hs.getD i defaultHook).calls + xs.length := by
  intro xs
  induction xs with
  | nil => intro hs i hi hmatch; simp
  | cons x rest ih =>
      intro hs i hi hmatch
      simp only [List.foldl_cons]
      have hget : (dispatch (mkEv x) hs).getD i defaultHook
          = runHook (mkEv x) (hs.getD i defaultHook) :=
        getD_map_of_lt (runHook (mkEv x)) hs i hi defaultHook
      have hlen2 : i < (dispatch (mkEv x) hs).length := by
        simpa [dispatch] using hi
      have hmatch2 : ∀ y ∈ rest,
          eventMatches ((dispatch (mkEv x) hs).getD i defaultHook) (mkEv y) = true := by
        intro y hy
        rw [hget, runHook_eventMatches]
        exact hmatch y (by simp [hy])
      rw [ih (dispatch (mkEv x) hs) i hlen2 hmatch2, hget,
        runHook_calls_of_matches _ _ (hmatch x (by simp))]
      simp only [List.length_cons]
      omega

/-- C4: successful mutating operations (Set, Delete, BatchSet, BatchDelete)
report success regardless of hook outcomes; a failing (or timed-out)
matching hook callback only pushes its error onto that hook's bounded error
buffer when there is room and drops it when full, never surfacing it as the
operation's result. -/
theorem hook_errors_never_fail_operations :
    (∀ (c : Client) (k : String) (v : List Nat), k ≠ "" →
        ∃ c2, c.set k v = Except.ok c2 ∧ c2.store = storeSet c.store k v)
  ∧ (∀ (c : Client) (k : String), k ≠ "" →
        ∃ c2, c.delete k = Except.ok c2 ∧ c2.store = storeDel c.store k)
  ∧ (∀ (c : Client) (kvs : List (String × List Nat)),
        (∀ kv ∈ kvs, kv.1 ≠ "") → ∃ c2, c.batchSet kvs = Except.ok c2)
  ∧ (∀ (c : Client) (ks : List String),
        (∀ k ∈ ks, k ≠ "") → ∃ c2, c.batchDelete ks = Except.ok c2)
  ∧ (∀ (e : Event) (h : HookReg) (msg : String),
        eventMatches h e = true → h.callback e.type e.key e.value = .fail msg →
        (runHook e h).errBuf
          = (if h.errBuf.length < h.errCap
             then h.errBuf ++ [msg] else h.errBuf)) := by
  refine ⟨?_, ?_, ?_, ?_, ?_⟩
  · intro c k v hk
    exact ⟨⟨storeSet c.store k v, dispatch ⟨.eventSet, k, some v⟩ c.hooks⟩,
      by simp [Client.set, hk], rfl⟩
  · intro c k hk
    exact ⟨⟨storeDel c.store k, dispatch ⟨.eventDelete, k, none⟩ c.hooks⟩,
      by simp [Client.delete, hk], rfl⟩
  · intro c kvs hkvs
    have hno : kvs.any (fun kv => kv.1 == "") = false := by
      rw [Bool.eq_false_iff]
      simp only [ne_eq, List.any_eq_true, beq_iff_eq, not_exists, not_and]
      intro kv hkv
      exact hkvs kv hkv
    exact ⟨⟨kvs.foldl (fun s kv => storeSet s kv.1 kv.2) c.store,
            kvs.foldl (fun hs kv => dispatch ⟨.eventBatchSet, kv.1, some kv.2⟩ hs)
              c.hooks⟩,
      by simp [Client.batchSet, hno]⟩
  · intro c ks hks
    have hno : ks.any (fun k => k == "") = false := by
      rw [Bool.eq_false_iff]
      simp only [ne_eq, List.any_eq_true, beq_iff_eq, not_exists, not_and]
      intro k hk
      exact hks k hk
    exact ⟨⟨ks.foldl (fun s k => storeDel s k) c.store,
            ks.foldl (fun hs k => dispatch ⟨.eventBatchDel, k, none⟩ hs) c.hooks⟩,
      by simp [Client.batchDelete, hno]⟩
  · intro e h msg hm hcb
    exact runHook_errBuf_of_fail e h msg hm hcb

/-- A callback that always fails, used in concrete hook witnesses. -/
def failCB : EventType → String → Option (List Nat) → HookResult :=
  fun _ _ _ => .fail "boom"

/-- A hook registration with an always-failing callback and capacity one. -/
def hookSample : HookReg := ⟨0, [], none, failCB, 1, [], 0⟩

/-- A client with an empty store and the failing hook registered. -/
def clientSample : Client := ⟨[], [hookSample]⟩

/-- C4 witness: a concrete Set with an always-failing hook still succeeds,
and the hook's error lands in its buffer. -/
theorem hook_errors_never_fail_operations_witness :
    (∃ c2, clientSample.set "a" [1] = Except.ok c2
        ∧ c2.store = storeSet clientSample.store "a" [1])
    ∧ (runHook ⟨.eventSet, "a", some [1]⟩ hookSample).errBuf
        = (if hookSample.errBuf.length < hookSample.errCap
           then hookSample.errBuf ++ ["boom"] else hookSample.errBuf) :=
  ⟨hook_errors_never_fail_operations.1 clientSample "a" [1] (by decide),
   hook_errors_never_fail_operations.2.2.2.2 ⟨.eventSet, "a", some [1]⟩
     hookSample "boom" rfl rfl⟩

/-- C5: a batch mutation dispatches one event per key: a hook whose filters
admit the BatchSet (resp. BatchDelete) event for every key of the batch is
invoked exactly once per key, so a three-key BatchSet invokes it three
times. -/
theorem batch_emits_per_key_events :
    (∀ (c : Client) (kvs : List (String × List Nat)) (i : Nat),
        i < c.hooks.length →
        (∀ kv ∈ kvs, kv.1 ≠ "") →
        (∀ kv ∈ kvs, eventMatches (c.hooks.getD i defaultHook)
            ⟨.eventBatchSet, kv.1, some kv.2⟩ = true) →
        ∃ c2, c.batchSet kvs = Except.ok c2
          ∧ (c2.hooks.getD i defaultHook).calls
              = (c.hooks.getD i defaultHook).calls + kvs.length)
  ∧ (∀ (c : Client) (ks : List String) (i : Nat),
        i < c.hooks.length →
        (∀ k ∈ ks, k ≠ "") →
        (∀ k ∈ ks, eventMatches (c.hooks.getD i defaultHook)
            ⟨.eventBatchDel, k, none⟩ = true) →
        ∃ c2, c.batchDelete ks = Except.ok c2
          ∧ (c2.hooks.getD i defaultHook).calls
              = (c.hooks.getD i defaultHook).calls + ks.length) := by
  constructor
  · intro c kvs i hi hkvs hmatch
    have hno : kvs.any (fun kv => kv.1 == "") = false := by
      rw [Bool.eq_false_iff]
      simp only [ne_eq, List.any_eq_true, beq_iff_eq, not_exists, not_and]
      intro kv hkv
      exact hkvs kv hkv
    refine ⟨⟨kvs.foldl (fun s kv => storeSet s kv.1 kv.2) c.store,
            kvs.foldl (fun hs kv => dispatch ⟨.eventBatchSet, kv.1, some kv.2⟩ hs)
              c.hooks⟩,
      by simp [Client.batchSet, hno], ?_⟩
    exact dispatchFold_count (fun kv => ⟨.eventBatchSet, kv.1, some kv.2⟩)
      kvs c.hooks i hi hmatch
  · intro c ks i hi hks hmatch
    have hno : ks.any (fun k => k == "") = false := by
      rw [Bool.eq_false_iff]
      simp only [ne_eq, List.any_eq_true, beq_iff_eq, not_exists, not_and]
      intro k hk
      exact hks k hk
    refine ⟨⟨ks.foldl (fun s k => storeDel s k) c.store,
            ks.foldl (fun hs k => dispatch ⟨.eventBatchDel, k, none⟩ hs) c.hooks⟩,
      by simp [Client.batchDelete, hno], ?_⟩
    exact dispatchFold_count (fun k => ⟨.eventBatchDel, k, none⟩)
      ks c.hooks i hi hmatch

/-- A hook registered for the BatchSet event type only. -/
def batchHook : HookReg :=
  ⟨1, [EventType.eventBatchSet], none, fun _ _ _ => .ok, 4, [], 0⟩

/-- A client with the BatchSet hook registered. -/
def clientBatch : Client := ⟨[], [batchHook]⟩

/-- C5 witness: a concrete three-key BatchSet invokes the registered
BatchSet hook exactly three times. -/
theorem batch_emits_per_key_events_witness :
    ∃ c2, clientBatch.batchSet [("k1", [1]), ("k2", [2]), ("k3", [3])]
        = Except.ok c2
      ∧ (c2.hooks.getD 0 defaultHook).calls
          = (clientBatch.hooks.getD 0 defaultHook).calls + 3 :=
  batch_emits_per_key_events.1 clientBatch [("k1", [1]), ("k2", [2]), ("k3", [3])]
    0 (by decide) (by decide) (by decide)
